import Mathlib

/-!
Verification development for the risc0-solana Groth16 verifier.

The program verified here is the on-chain RISC Zero Groth16 proof verifier
for Solana.  The core lives in
`solana-verifier/programs/groth_16_verifier/src/lib.rs` (the embedded
verification-key variant) and `src/lib.rs` (the identical algorithm with the
verification key passed as a parameter).  Byte buffers (`[u8; N]` / `Vec<u8>`)
are embedded as `List Nat` whose entries are bytes (`< 256`); fixed widths are
carried as explicit length hypotheses.  The external curve primitives
(`alt_bn128_multiplication`, `alt_bn128_addition`, `alt_bn128_pairing`) and
SHA-256 (`hashv`) are Solana syscalls, not code of this repository; they are
embedded as explicit function parameters, exactly as wide as their Rust
signatures (fallible bytes-to-bytes functions).
-/

/-- Big-endian interpretation of a byte list as a natural number.
Embeds `num_bigint::BigUint::from_bytes_be`. -/
def bytesToNat : List Nat → Nat
  | [] => 0
  | b :: bs => b * 256 ^ bs.length + bytesToNat bs

/-- Fixed-width big-endian byte encoding of a natural number (width `k`).
`BigUint::to_bytes_be` produces the minimal big-endian bytes; the Rust code
always copies them into the tail of a zeroed fixed-width buffer
(`result[W - bytes.len()..].copy_from_slice(&bytes)`), which is exactly the
fixed-width big-endian encoding whenever the value fits in `W` bytes. -/
def natToBytesBE : Nat → Nat → List Nat
  | 0, _ => []
  | k + 1, n => natToBytesBE k (n / 256) ++ [n % 256]

theorem natToBytesBE_length (k n : Nat) : (natToBytesBE k n).length = k := by
  induction k generalizing n with
  | zero => rfl
  | succ k ih => simp [natToBytesBE, ih]

theorem bytesToNat_append_singleton (xs : List Nat) (b : Nat) :
    bytesToNat (xs ++ [b]) = 256 * bytesToNat xs + b := by
  induction xs with
  | nil => simp [bytesToNat]
  | cons x xs ih =>
      have hlen : (xs ++ [b]).length = xs.length + 1 := by simp
      calc bytesToNat (x :: xs ++ [b])
          = x * 256 ^ (xs ++ [b]).length + bytesToNat (xs ++ [b]) := rfl
        _ = x * 256 ^ (xs.length + 1) + (256 * bytesToNat xs + b) := by rw [hlen, ih]
        _ = 256 * bytesToNat (x :: xs) + b := by
            show _ = 256 * (x * 256 ^ xs.length + bytesToNat xs) + b
            ring

theorem bytesToNat_natToBytesBE (k n : Nat) :
    bytesToNat (natToBytesBE k n) = n % 256 ^ k := by
  induction k generalizing n with
  | zero => simp [natToBytesBE, bytesToNat, Nat.mod_one]
  | succ k ih =>
      rw [natToBytesBE, bytesToNat_append_singleton, ih, pow_succ, mul_comm (256 ^ k) 256,
        Nat.mod_mul]
      ring

theorem bytesToNat_lt (l : List Nat) (h : ∀ b ∈ l, b < 256) :
    bytesToNat l < 256 ^ l.length := by
  induction l with
  | nil => simp [bytesToNat]
  | cons x xs ih =>
      have hx : x < 256 := h x (by simp)
      have hxs : bytesToNat xs < 256 ^ xs.length := ih (fun b hb => h b (by simp [hb]))
      have hx1 : x + 1 ≤ 256 := hx
      calc bytesToNat (x :: xs) = x * 256 ^ xs.length + bytesToNat xs := rfl
        _ < x * 256 ^ xs.length + 256 ^ xs.length := by omega
        _ = (x + 1) * 256 ^ xs.length := by ring
        _ ≤ 256 * 256 ^ xs.length := Nat.mul_le_mul_right _ hx1
        _ = 256 ^ (x :: xs).length := by rw [List.length_cons, pow_succ]; ring

theorem natToBytesBE_bytesToNat (l : List Nat) (h : ∀ b ∈ l, b < 256) :
    natToBytesBE l.length (bytesToNat l) = l := by
  induction l using List.reverseRecOn with
  | nil => rfl
  | append_singleton xs b ih =>
      have hb : b < 256 := h b (by simp)
      have hxs : ∀ x ∈ xs, x < 256 := fun x hx => h x (by simp [hx])
      rw [List.length_append, List.length_singleton, bytesToNat_append_singleton,
        natToBytesBE]
      have h1 : (256 * bytesToNat xs + b) / 256 = bytesToNat xs := by
        rw [Nat.mul_add_div (by norm_num), Nat.div_eq_of_lt hb]
        simp
      have h2 : (256 * bytesToNat xs + b) % 256 = b := by
        rw [Nat.mul_add_mod, Nat.mod_eq_of_lt hb]
      rw [h1, h2, ih hxs]

/-- The BN254 base field modulus `q`, as the 32-byte big-endian constant
`BASE_FIELD_MODULUS_Q` of the source. -/
def BASE_FIELD_MODULUS_Q : List Nat :=
  [48, 100, 78, 114, 225, 49, 160, 41, 184, 80, 69, 182, 129, 129, 88, 93,
   151, 129, 106, 145, 104, 113, 202, 141, 60, 32, 140, 22, 216, 124, 253, 71]

/-- The BN254 base field modulus `q` as a natural number, the value Rust
obtains from `BigUint::from_bytes_be(&BASE_FIELD_MODULUS_Q)`. -/
def qNat : Nat := bytesToNat BASE_FIELD_MODULUS_Q

/-- `ALLOWED_CONTROL_ROOT` constant of
`solana-verifier/programs/groth_16_verifier/src/lib.rs` (hex
`8cdad9242664be3112aba377c5425a4df735eb1c6966472b561d2855932c0469`). -/
def ALLOWED_CONTROL_ROOT : List Nat :=
  [140, 218, 217, 36, 38, 100, 190, 49, 18, 171, 163, 119, 197, 66, 90, 77,
   247, 53, 235, 28, 105, 102, 71, 43, 86, 29, 40, 85, 147, 44, 4, 105]

/-- `BN254_IDENTITY_CONTROL_ID` constant (hex
`c07a65145c3cb48b6101962ea607a4dd93c753bb26975cb47feb00d3666e4404`). -/
def BN254_IDENTITY_CONTROL_ID : List Nat :=
  [192, 122, 101, 20, 92, 60, 180, 139, 97, 1, 150, 46, 166, 7, 164, 221,
   147, 199, 83, 187, 38, 151, 92, 180, 127, 235, 0, 211, 102, 110, 68, 4]

/-- `OUTPUT_TAG` constant: SHA-256 tag digest of the string risc0.Output. -/
def OUTPUT_TAG : List Nat :=
  [119, 234, 254, 179, 102, 167, 139, 71, 116, 125, 224, 215, 187, 23, 98, 132,
   8, 95, 245, 86, 72, 135, 0, 154, 91, 230, 61, 163, 45, 53, 89, 212]

/-- `SYSTEM_STATE_ZERO_DIGEST` constant: SHA-256 tag digest of the zero
system state. -/
def SYSTEM_STATE_ZERO_DIGEST : List Nat :=
  [163, 172, 194, 113, 23, 65, 137, 150, 52, 11, 132, 229, 169, 15, 62, 244,
   196, 157, 34, 199, 158, 68, 170, 216, 34, 236, 156, 49, 62, 30, 184, 226]

/-- `RECEIPT_CLAIM_TAG` constant: SHA-256 tag digest of risc0.ReceiptClaim. -/
def RECEIPT_CLAIM_TAG : List Nat :=
  [203, 31, 239, 205, 31, 45, 154, 100, 151, 92, 187, 191, 110, 22, 30, 41,
   20, 67, 75, 12, 187, 153, 96, 184, 77, 245, 215, 23, 232, 107, 72, 175]

/-- The byte-by-byte comparison loop of `is_scalar_valid`: walks the zipped
byte pairs, returns `true` at the first strictly smaller scalar byte, `false`
at the first strictly larger one, and `false` when the zip is exhausted with
all bytes equal (`scalar == q`). -/
def scalar_cmp_loop : List Nat → List Nat → Bool
  | _, [] => false
  | [], _ :: _ => false
  | s :: ss, b :: bs =>
      if s < b then true
      else if s > b then false
      else scalar_cmp_loop ss bs

/-- `is_scalar_valid(scalar)` from the source: lexicographic big-endian
comparison of the 32-byte scalar against `BASE_FIELD_MODULUS_Q`. -/
def is_scalar_valid (scalar : List Nat) : Bool :=
  scalar_cmp_loop scalar BASE_FIELD_MODULUS_Q

/-- Lexicographic big-endian comparison of equal-length byte lists agrees
with comparison of their numeric values. -/
theorem scalar_cmp_loop_iff_lt (a b : List Nat) (hlen : a.length = b.length)
    (ha : ∀ x ∈ a, x < 256) (hb : ∀ x ∈ b, x < 256) :
    scalar_cmp_loop a b = true ↔ bytesToNat a < bytesToNat b := by
  induction a generalizing b with
  | nil =>
      cases b with
      | nil => simp [scalar_cmp_loop, bytesToNat]
      | cons y ys => simp at hlen
  | cons x xs ih =>
      cases b with
      | nil => simp at hlen
      | cons y ys =>
          have hlen2 : xs.length = ys.length := by simpa using hlen
          have hxs : ∀ t ∈ xs, t < 256 := fun t ht => ha t (by simp [ht])
          have hys : ∀ t ∈ ys, t < 256 := fun t ht => hb t (by simp [ht])
          have hxsn : bytesToNat xs < 256 ^ xs.length := bytesToNat_lt xs hxs
          have hysn : bytesToNat ys < 256 ^ ys.length := bytesToNat_lt ys hys
          have hbx : bytesToNat (x :: xs) = x * 256 ^ ys.length + bytesToNat xs := by
            show x * 256 ^ xs.length + bytesToNat xs = _
            rw [hlen2]
          have hby : bytesToNat (y :: ys) = y * 256 ^ ys.length + bytesToNat ys := rfl
          have hloop : scalar_cmp_loop (x :: xs) (y :: ys)
              = if x < y then true else if x > y then false else scalar_cmp_loop xs ys :=
            rfl
          rw [hloop, hbx, hby]
          rcases Nat.lt_trichotomy x y with hxy | hxy | hxy
          · have hnum : x * 256 ^ ys.length + bytesToNat xs
                < y * 256 ^ ys.length + bytesToNat ys := by
              have : (x + 1) * 256 ^ ys.length ≤ y * 256 ^ ys.length :=
                Nat.mul_le_mul_right _ hxy
              have hxb : bytesToNat xs < 256 ^ ys.length := by rw [← hlen2]; exact hxsn
              nlinarith
            simp [hxy, hnum]
          · subst hxy
            have hlt : ¬ x < x := lt_irrefl x
            simp only [if_neg hlt, gt_iff_lt, if_neg hlt]
            rw [ih ys hlen2 hxs hys]
            omega
          · have hnum : ¬ x * 256 ^ ys.length + bytesToNat xs
                < y * 256 ^ ys.length + bytesToNat ys := by
              have : (y + 1) * 256 ^ ys.length ≤ x * 256 ^ ys.length :=
                Nat.mul_le_mul_right _ hxy
              push_neg
              nlinarith
            have h1 : ¬ x < y := by omega
            have h2 : x > y := hxy
            simp [h1, h2, hnum]

/-- `to_fixed_array(input)` of the source: a 32-byte buffer that keeps the
input bytes in its tail (`fixed_array[32 - len..] = input`) and zeroes in
front.  The source asserts `len ≤ 32`; every call site passes 16 or 32
bytes. -/
def to_fixed_array (input : List Nat) : List Nat :=
  List.replicate (32 - input.length) 0 ++ input

/-- Error type of the `public_inputs` result in the source: the two
infallible `split_digest_bytes` calls are `map_err`-ed to
`ProgramError::InvalidAccountData`. -/
inductive ProgramErr : Type
  | InvalidAccountData : ProgramErr
deriving DecidableEq, Repr

/-- `split_digest_bytes(d)` of the source: reverse the digest bytes, split at
the middle, return the two halves, each placed into the tail of a 32-byte
buffer; the lower-order half (the tail of the reversed digest) first.  The
Rust signature is a `Result` that is always `Ok`. -/
def split_digest_bytes (d : List Nat) : Except Unit (List Nat × List Nat) :=
  let big_endian := d.reverse
  let middle := big_endian.length / 2
  let b := big_endian.take middle
  let a := big_endian.drop middle
  .ok (to_fixed_array a, to_fixed_array b)

/-- `public_inputs(claim_digest)` of
`solana-verifier/programs/groth_16_verifier/src/lib.rs`: derives the fixed
5-element public-input vector from the claim digest and the two protocol
constants.  `Digest::from_bytes`/`as_bytes` are identities on the 32 raw
bytes and are elided. -/
def public_inputs (claim_digest : List Nat) : Except ProgramErr (List (List Nat)) :=
  match split_digest_bytes ALLOWED_CONTROL_ROOT with
  | .error _ => .error .InvalidAccountData
  | .ok (a0, a1) =>
      match split_digest_bytes claim_digest with
      | .error _ => .error .InvalidAccountData
      | .ok (c0, c1) =>
          let id_bn254_fr := to_fixed_array BN254_IDENTITY_CONTROL_ID.reverse
          .ok [a0, a1, c0, c1, id_bn254_fr]

/-- `client::negate_g1(point)` of the source, on a 64-byte `x ‖ y` buffer:
interpret bytes 32..64 as the big-endian integer `y`, replace them with the
big-endian bytes of `q - y` (zero-padded into the 32-byte slot), and keep the
x bytes.  The subtraction is `BigUint` subtraction, which panics on
underflow; `none` models that panic.  The declared `Err` variant of the Rust
signature corresponds to `some (.error ())` and is never produced by the
body. -/
def negate_g1 (point : List Nat) : Option (Except Unit (List Nat)) :=
  let x := point.take 32
  let y := point.drop 32
  let y_big := bytesToNat y
  if y_big ≤ qNat then
    some (.ok (x ++ natToBytesBE 32 (qNat - y_big)))
  else
    none

/-- The SHA-256 digest builders of the source, parameterised by the external
SHA-256 primitive `H` (the `hashv` syscall applied to a list of slices is
SHA-256 of their concatenation).  `compute_output_digest` hashes
`OUTPUT_TAG ‖ journal_digest ‖ assumptions_digest ‖ (2u16 << 8).to_be_bytes()`. -/
def compute_output_digest (H : List Nat → List Nat)
    (journal_digest assumptions_digest : List Nat) : List Nat :=
  let down_len := natToBytesBE 2 ((2 * 2 ^ 8) % 2 ^ 16)
  H (OUTPUT_TAG ++ journal_digest ++ assumptions_digest ++ down_len)

/-- `compute_output_digest_ok`: the `Output(journal_digest, 0)` case, with an
all-zero assumptions digest. -/
def compute_output_digest_ok (H : List Nat → List Nat) (journal_digest : List Nat) :
    List Nat :=
  compute_output_digest H journal_digest (List.replicate 32 0)

/-- `compute_receipt_claim_digest`: hashes `RECEIPT_CLAIM_TAG ‖ input ‖ pre ‖
post ‖ output ‖ (system_exit << 24).to_be_bytes() ‖ (user_exit << 24).to_be_bytes()
‖ (4u16 << 8).to_be_bytes()`.  The `u32` shifts wrap modulo `2^32`. -/
def compute_receipt_claim_digest (H : List Nat → List Nat)
    (input_digest pre_state_digest post_state_digest output_digest : List Nat)
    (system_exit_code user_exit_code : Nat) : List Nat :=
  let system_bytes := natToBytesBE 4 ((system_exit_code * 2 ^ 24) % 2 ^ 32)
  let user_bytes := natToBytesBE 4 ((user_exit_code * 2 ^ 24) % 2 ^ 32)
  let down_len := natToBytesBE 2 ((4 * 2 ^ 8) % 2 ^ 16)
  H (RECEIPT_CLAIM_TAG ++ input_digest ++ pre_state_digest ++ post_state_digest ++
    output_digest ++ system_bytes ++ user_bytes ++ down_len)

/-- `compute_claim_digest(image_id, journal_digest)` of the source: the
receipt-claim digest with zero input digest, `pre = image_id`,
`post = SYSTEM_STATE_ZERO_DIGEST`, `output = Output(journal_digest, 0)`
digest, and both exit codes zero. -/
def compute_claim_digest (H : List Nat → List Nat)
    (image_id journal_digest : List Nat) : List Nat :=
  compute_receipt_claim_digest H (List.replicate 32 0) image_id
    SYSTEM_STATE_ZERO_DIGEST (compute_output_digest_ok H journal_digest) 0 0

/-- The error enum of
`solana-verifier/programs/groth_16_verifier/src/error.rs`. -/
inductive VerifierError : Type
  | G1CompressionError : VerifierError
  | G2CompressionError : VerifierError
  | VerificationError : VerifierError
  | InvalidPublicInput : VerifierError
  | ArithmeticError : VerifierError
  | PairingError : VerifierError
deriving DecidableEq, Repr

/-- Result of running a piece of Rust code that can return a value, return an
error, or panic (`unwrap()` on an `Err`). -/
inductive Outcome (α : Type) : Type
  | ok (a : α) : Outcome α
  | fail (e : VerifierError) : Outcome α
  | panicked : Outcome α
deriving DecidableEq, Repr

/-- The external alt_bn128 syscalls, exactly as wide as their Rust
signatures: fallible bytes-to-bytes functions (`alt_bn128_multiplication`,
`alt_bn128_addition`, `alt_bn128_pairing`). -/
structure Prims : Type where
  mul : List Nat → Except Unit (List Nat)
  add : List Nat → Except Unit (List Nat)
  pairing : List Nat → Except Unit (List Nat)

/-- The `Proof` struct: `pi_a` (64B, expected pre-negated), `pi_b` (128B),
`pi_c` (64B). -/
structure Proof : Type where
  pi_a : List Nat
  pi_b : List Nat
  pi_c : List Nat

/-- The `VerificationKey` struct of `src/lib.rs`.  The Anchor variant reads
the same fields from the embedded `VERIFICATION_KEY` constant (its `vk.rs`
module is not part of the sources here); the verification key is therefore a
parameter of the embedded verifier. -/
structure VerificationKey : Type where
  nr_pubinputs : Nat
  vk_alpha_g1 : List Nat
  vk_beta_g2 : List Nat
  vk_gamma_g2 : List Nat
  vk_delta_g2 : List Nat
  vk_ic : List (List Nat)

/-- The public-input preparation loop of `verify_groth_proof`:
`for (i, input) in public.inputs.iter().enumerate()`, validate the scalar,
then `mul_res = alt_bn128_multiplication(vk_ic[i+1] ‖ input)` (failure →
`ArithmeticError`), then `prepared = alt_bn128_addition(mul_res ‖ prepared)
.unwrap()` (failure → Rust panic) `.try_into()` (wrong length →
`ArithmeticError`). -/
def prepare_loop (P : Prims) (vk_ic : List (List Nat)) :
    List (List Nat) → Nat → List Nat → Outcome (List Nat)
  | [], _, prepared => .ok prepared
  | input :: rest, i, prepared =>
      if is_scalar_valid input then
        match P.mul (vk_ic.getD (i + 1) [] ++ input) with
        | .error _ => .fail .ArithmeticError
        | .ok mul_res =>
            match P.add (mul_res ++ prepared) with
            | .error _ => .panicked
            | .ok sum =>
                if sum.length = 64 then prepare_loop P vk_ic rest (i + 1) sum
                else .fail .ArithmeticError
      else .fail .InvalidPublicInput

/-- The pairing phase of `verify_groth_proof`: call `alt_bn128_pairing` on
`pi_a ‖ pi_b ‖ prepared ‖ vk_gamma_g2 ‖ pi_c ‖ vk_delta_g2 ‖ vk_alpha_g1 ‖
vk_beta_g2` (failure → `PairingError`) and accept exactly when it returns the
32-byte big-endian integer 1 (`expected = [0u8; 31] ‖ [1u8]`), otherwise
`VerificationError`. -/
def check_pairing (P : Prims) (vk : VerificationKey) (proof : Proof)
    (prepared : List Nat) : Outcome Unit :=
  let pairing_input := proof.pi_a ++ proof.pi_b ++ prepared ++
    vk.vk_gamma_g2 ++ proof.pi_c ++ vk.vk_delta_g2 ++
    vk.vk_alpha_g1 ++ vk.vk_beta_g2
  match P.pairing pairing_input with
  | .error _ => .fail .PairingError
  | .ok pairing_res =>
      if pairing_res = List.replicate 31 0 ++ [1] then .ok ()
      else .fail .VerificationError

/-- `verify_groth_proof(proof, public)` of the source: reject unless
`vk_ic.len() == N + 1`, run the preparation loop starting from `vk_ic[0]`,
then run the pairing check on the accumulated input. -/
def verify_groth_proof (P : Prims) (vk : VerificationKey) (proof : Proof)
    (inputs : List (List Nat)) : Outcome Unit :=
  if vk.vk_ic.length ≠ inputs.length + 1 then .fail .InvalidPublicInput
  else
    match prepare_loop P vk.vk_ic inputs 0 (vk.vk_ic.getD 0 []) with
    | .fail e => .fail e
    | .panicked => .panicked
    | .ok prepared => check_pairing P vk proof prepared

/-- `prepare_loop` instrumented with syscall counters: identical control
flow, additionally returning how many `alt_bn128_multiplication` and
`alt_bn128_addition` calls were issued. -/
def prepare_loopT (P : Prims) (vk_ic : List (List Nat)) :
    List (List Nat) → Nat → List Nat → Outcome (List Nat) × (Nat × Nat)
  | [], _, prepared => (.ok prepared, (0, 0))
  | input :: rest, i, prepared =>
      if is_scalar_valid input then
        match P.mul (vk_ic.getD (i + 1) [] ++ input) with
        | .error _ => (.fail .ArithmeticError, (1, 0))
        | .ok mul_res =>
            match P.add (mul_res ++ prepared) with
            | .error _ => (.panicked, (1, 1))
            | .ok sum =>
                if sum.length = 64 then
                  let r := prepare_loopT P vk_ic rest (i + 1) sum
                  (r.1, (r.2.1 + 1, r.2.2 + 1))
                else (.fail .ArithmeticError, (1, 1))
      else (.fail .InvalidPublicInput, (0, 0))

/-- `verify_groth_proof` instrumented with syscall counters
`(multiplications, additions, pairings)`. -/
def verify_groth_proofT (P : Prims) (vk : VerificationKey) (proof : Proof)
    (inputs : List (List Nat)) : Outcome Unit × (Nat × Nat × Nat) :=
  if vk.vk_ic.length ≠ inputs.length + 1 then
    (.fail .InvalidPublicInput, (0, 0, 0))
  else
    let r := prepare_loopT P vk.vk_ic inputs 0 (vk.vk_ic.getD 0 [])
    match r.1 with
    | .fail e => (.fail e, (r.2.1, r.2.2, 0))
    | .panicked => (.panicked, (r.2.1, r.2.2, 0))
    | .ok prepared => (check_pairing P vk proof prepared, (r.2.1, r.2.2, 1))

/-- Branch equation: an invalid scalar stops the plain loop. -/
theorem prepare_loop_cons_invalid (P : Prims) (vk_ic : List (List Nat))
    (input : List Nat) (rest : List (List Nat)) (i : Nat) (prepared : List Nat)
    (hv : is_scalar_valid input = false) :
    prepare_loop P vk_ic (input :: rest) i prepared = .fail .InvalidPublicInput := by
  rw [prepare_loop, hv]
  rfl

/-- Branch equation: a failing multiplication syscall yields
`ArithmeticError`. -/
theorem prepare_loop_cons_mul_error (P : Prims) (vk_ic : List (List Nat))
    (input : List Nat) (rest : List (List Nat)) (i : Nat) (prepared : List Nat)
    (e : Unit) (hv : is_scalar_valid input = true)
    (hm : P.mul (vk_ic.getD (i + 1) [] ++ input) = .error e) :
    prepare_loop P vk_ic (input :: rest) i prepared = .fail .ArithmeticError := by
  rw [prepare_loop, hv, hm]
  rfl

/-- Branch equation: a failing addition syscall is `unwrap()`-ed, i.e. a
panic. -/
theorem prepare_loop_cons_add_error (P : Prims) (vk_ic : List (List Nat))
    (input : List Nat) (rest : List (List Nat)) (i : Nat)
    (prepared mul_res : List Nat) (e : Unit) (hv : is_scalar_valid input = true)
    (hm : P.mul (vk_ic.getD (i + 1) [] ++ input) = .ok mul_res)
    (ha : P.add (mul_res ++ prepared) = .error e) :
    prepare_loop P vk_ic (input :: rest) i prepared = .panicked := by
  rw [prepare_loop, hv, hm]
  simp only [eq_self_iff_true, if_true]
  rw [ha]

/-- Branch equation: an addition result of a wrong length fails the
`try_into` conversion, producing `ArithmeticError`. -/
theorem prepare_loop_cons_len_error (P : Prims) (vk_ic : List (List Nat))
    (input : List Nat) (rest : List (List Nat)) (i : Nat)
    (prepared mul_res sum : List Nat) (hv : is_scalar_valid input = true)
    (hm : P.mul (vk_ic.getD (i + 1) [] ++ input) = .ok mul_res)
    (ha : P.add (mul_res ++ prepared) = .ok sum) (hs : sum.length ≠ 64) :
    prepare_loop P vk_ic (input :: rest) i prepared = .fail .ArithmeticError := by
  rw [prepare_loop, hv, hm]
  simp only [eq_self_iff_true, if_true]
  rw [ha]
  simp only [hs, if_false]

/-- Branch equation: a successful iteration of the plain loop recurses with
the addition result as the new accumulator. -/
theorem prepare_loop_cons_step (P : Prims) (vk_ic : List (List Nat))
    (input : List Nat) (rest : List (List Nat)) (i : Nat)
    (prepared mul_res sum : List Nat) (hv : is_scalar_valid input = true)
    (hm : P.mul (vk_ic.getD (i + 1) [] ++ input) = .ok mul_res)
    (ha : P.add (mul_res ++ prepared) = .ok sum) (hs : sum.length = 64) :
    prepare_loop P vk_ic (input :: rest) i prepared =
      prepare_loop P vk_ic rest (i + 1) sum := by
  rw [prepare_loop, hv, hm]
  simp only [eq_self_iff_true, if_true]
  rw [ha]
  simp only [hs, eq_self_iff_true, if_true]

/-- Branch equation: an invalid scalar stops the instrumented loop before any
syscall. -/
theorem prepare_loopT_cons_invalid (P : Prims) (vk_ic : List (List Nat))
    (input : List Nat) (rest : List (List Nat)) (i : Nat) (prepared : List Nat)
    (hv : is_scalar_valid input = false) :
    prepare_loopT P vk_ic (input :: rest) i prepared =
      (.fail .InvalidPublicInput, (0, 0)) := by
  rw [prepare_loopT, hv]
  rfl

/-- Branch equation: a failing multiplication is counted before the loop
returns `ArithmeticError`. -/
theorem prepare_loopT_cons_mul_error (P : Prims) (vk_ic : List (List Nat))
    (input : List Nat) (rest : List (List Nat)) (i : Nat) (prepared : List Nat)
    (e : Unit) (hv : is_scalar_valid input = true)
    (hm : P.mul (vk_ic.getD (i + 1) [] ++ input) = .error e) :
    prepare_loopT P vk_ic (input :: rest) i prepared =
      (.fail .ArithmeticError, (1, 0)) := by
  rw [prepare_loopT, hv, hm]
  rfl

/-- Branch equation: a failing addition is a panic after one multiplication
and one addition. -/
theorem prepare_loopT_cons_add_error (P : Prims) (vk_ic : List (List Nat))
    (input : List Nat) (rest : List (List Nat)) (i : Nat)
    (prepared mul_res : List Nat) (e : Unit) (hv : is_scalar_valid input = true)
    (hm : P.mul (vk_ic.getD (i + 1) [] ++ input) = .ok mul_res)
    (ha : P.add (mul_res ++ prepared) = .error e) :
    prepare_loopT P vk_ic (input :: rest) i prepared = (.panicked, (1, 1)) := by
  rw [prepare_loopT, hv, hm]
  simp only [eq_self_iff_true, if_true]
  rw [ha]

/-- Branch equation: a wrong-length addition result produces
`ArithmeticError` after one multiplication and one addition. -/
theorem prepare_loopT_cons_len_error (P : Prims) (vk_ic : List (List Nat))
    (input : List Nat) (rest : List (List Nat)) (i : Nat)
    (prepared mul_res sum : List Nat) (hv : is_scalar_valid input = true)
    (hm : P.mul (vk_ic.getD (i + 1) [] ++ input) = .ok mul_res)
    (ha : P.add (mul_res ++ prepared) = .ok sum) (hs : sum.length ≠ 64) :
    prepare_loopT P vk_ic (input :: rest) i prepared =
      (.fail .ArithmeticError, (1, 1)) := by
  rw [prepare_loopT, hv, hm]
  simp only [eq_self_iff_true, if_true]
  rw [ha]
  simp only [hs, if_false]

/-- Branch equation: a successful iteration recurses with one more
multiplication and one more addition on the books. -/
theorem prepare_loopT_cons_step (P : Prims) (vk_ic : List (List Nat))
    (input : List Nat) (rest : List (List Nat)) (i : Nat)
    (prepared mul_res sum : List Nat) (hv : is_scalar_valid input = true)
    (hm : P.mul (vk_ic.getD (i + 1) [] ++ input) = .ok mul_res)
    (ha : P.add (mul_res ++ prepared) = .ok sum) (hs : sum.length = 64) :
    prepare_loopT P vk_ic (input :: rest) i prepared =
      ((prepare_loopT P vk_ic rest (i + 1) sum).1,
        ((prepare_loopT P vk_ic rest (i + 1) sum).2.1 + 1,
         (prepare_loopT P vk_ic rest (i + 1) sum).2.2 + 1)) := by
  rw [prepare_loopT, hv, hm]
  simp only [eq_self_iff_true, if_true]
  rw [ha]
  simp only [hs, eq_self_iff_true, if_true]

/-- The instrumented loop computes the same outcome as the plain loop. -/
theorem prepare_loopT_fst (P : Prims) (vk_ic : List (List Nat))
    (inputs : List (List Nat)) (i : Nat) (prepared : List Nat) :
    (prepare_loopT P vk_ic inputs i prepared).1 =
      prepare_loop P vk_ic inputs i prepared := by
  induction inputs generalizing i prepared with
  | nil => rfl
  | cons input rest ih =>
      cases hv : is_scalar_valid input with
      | false =>
          rw [prepare_loopT_cons_invalid P vk_ic input rest i prepared hv,
            prepare_loop_cons_invalid P vk_ic input rest i prepared hv]
      | true =>
          cases hm : P.mul (vk_ic.getD (i + 1) [] ++ input) with
          | error e =>
              rw [prepare_loopT_cons_mul_error P vk_ic input rest i prepared e hv hm,
                prepare_loop_cons_mul_error P vk_ic input rest i prepared e hv hm]
          | ok mul_res =>
              cases ha : P.add (mul_res ++ prepared) with
              | error e =>
                  rw [prepare_loopT_cons_add_error P vk_ic input rest i prepared
                      mul_res e hv hm ha,
                    prepare_loop_cons_add_error P vk_ic input rest i prepared
                      mul_res e hv hm ha]
              | ok sum =>
                  by_cases hs : sum.length = 64
                  · rw [prepare_loopT_cons_step P vk_ic input rest i prepared
                        mul_res sum hv hm ha hs,
                      prepare_loop_cons_step P vk_ic input rest i prepared
                        mul_res sum hv hm ha hs]
                    exact ih (i + 1) sum
                  · rw [prepare_loopT_cons_len_error P vk_ic input rest i prepared
                        mul_res sum hv hm ha hs,
                      prepare_loop_cons_len_error P vk_ic input rest i prepared
                        mul_res sum hv hm ha hs]

/-- The instrumented verifier computes the same outcome as the plain
verifier. -/
theorem verify_groth_proofT_fst (P : Prims) (vk : VerificationKey)
    (proof : Proof) (inputs : List (List Nat)) :
    (verify_groth_proofT P vk proof inputs).1 =
      verify_groth_proof P vk proof inputs := by
  rw [verify_groth_proofT, verify_groth_proof]
  by_cases hlen : vk.vk_ic.length ≠ inputs.length + 1
  · rw [if_pos hlen, if_pos hlen]
  · rw [if_neg hlen, if_neg hlen]
    dsimp only
    rw [← prepare_loopT_fst P vk.vk_ic inputs 0 (vk.vk_ic.getD 0 [])]
    cases (prepare_loopT P vk.vk_ic inputs 0 (vk.vk_ic.getD 0 [])).1 with
    | fail e => rfl
    | panicked => rfl
    | ok prepared => rfl

/-- A preparation loop that completes issues exactly one multiplication and
one addition per public input. -/
theorem prepare_loopT_count_of_ok (P : Prims) (vk_ic : List (List Nat))
    (inputs : List (List Nat)) (i : Nat) (prepared out : List Nat)
    (h : (prepare_loopT P vk_ic inputs i prepared).1 = .ok out) :
    (prepare_loopT P vk_ic inputs i prepared).2 =
      (inputs.length, inputs.length) := by
  induction inputs generalizing i prepared out with
  | nil => rfl
  | cons input rest ih =>
      cases hv : is_scalar_valid input with
      | false =>
          rw [prepare_loopT_cons_invalid P vk_ic input rest i prepared hv] at h
          exact absurd h (by simp)
      | true =>
          cases hm : P.mul (vk_ic.getD (i + 1) [] ++ input) with
          | error e =>
              rw [prepare_loopT_cons_mul_error P vk_ic input rest i prepared e hv hm] at h
              exact absurd h (by simp)
          | ok mul_res =>
              cases ha : P.add (mul_res ++ prepared) with
              | error e =>
                  rw [prepare_loopT_cons_add_error P vk_ic input rest i prepared
                    mul_res e hv hm ha] at h
                  exact absurd h (by simp)
              | ok sum =>
                  by_cases hs : sum.length = 64
                  · rw [prepare_loopT_cons_step P vk_ic input rest i prepared
                      mul_res sum hv hm ha hs] at h ⊢
                    have h2 := ih (i + 1) sum out h
                    rw [h2]
                    simp
                  · rw [prepare_loopT_cons_len_error P vk_ic input rest i prepared
                      mul_res sum hv hm ha hs] at h
                    exact absurd h (by simp)

/-- The `split_digest` step as the specification words it: reverse the 32
digest bytes, split into two 16-byte halves, and extend each half into a
32-byte big-endian field element (the half occupies the low-order bytes;
zero-extension is the only value-preserving padding of a big-endian field
element, and is what makes the elements `< q` as the specification
requires).  First component: the low half (tail of the reversed digest);
second: the high half. -/
def split_digest_spec (d : List Nat) : List Nat × List Nat :=
  (List.replicate 16 0 ++ d.reverse.drop 16, List.replicate 16 0 ++ d.reverse.take 16)

/-- The fifth public input as the specification words it: the
`BN254_IDENTITY_CONTROL_ID` constant byte-reversed (already 32 bytes, so the
zero-extension is empty). -/
def identity_input_spec : List Nat := BN254_IDENTITY_CONTROL_ID.reverse

/-- Claim C3: for every 32-byte claim digest, `public_inputs` returns the
5-element vector `[a0, a1, c0, c1, id]` where `(a0, a1)` is `split_digest`
of `ALLOWED_CONTROL_ROOT`, `(c0, c1)` is `split_digest` of the claim digest
(reverse the 32 bytes, split into two 16-byte halves, extend each half into
a 32-byte field element, low half first, high half second), and `id` is
`BN254_IDENTITY_CONTROL_ID` byte-reversed and extended to 32 bytes. -/
theorem C3_public_inputs_structure (d : List Nat) (hd : d.length = 32) :
    public_inputs d = .ok
      [(split_digest_spec ALLOWED_CONTROL_ROOT).1,
       (split_digest_spec ALLOWED_CONTROL_ROOT).2,
       (split_digest_spec d).1, (split_digest_spec d).2,
       identity_input_spec] := by
  have h1 : d.reverse.length = 32 := by simp [hd]
  have hA : ALLOWED_CONTROL_ROOT.length = 32 := rfl
  have hB : BN254_IDENTITY_CONTROL_ID.length = 32 := rfl
  simp only [public_inputs, split_digest_bytes, to_fixed_array, split_digest_spec,
    identity_input_spec, h1, hA, hB, List.length_drop, List.length_take,
    List.length_reverse, hd]
  norm_num

/-- Claim C3 witness at a concrete 32-byte digest. -/
theorem C3_public_inputs_structure_witness :
    public_inputs (List.replicate 32 7) = .ok
      [(split_digest_spec ALLOWED_CONTROL_ROOT).1,
       (split_digest_spec ALLOWED_CONTROL_ROOT).2,
       (split_digest_spec (List.replicate 32 7)).1,
       (split_digest_spec (List.replicate 32 7)).2,
       identity_input_spec] :=
  C3_public_inputs_structure (List.replicate 32 7) (by decide)

/-- Claim C9: `public_inputs` never returns an error: for every 32-byte
claim digest it returns `Ok` with exactly five 32-byte elements, and the
elements at positions 0, 1 and 4 are fixed expressions in the
`ALLOWED_CONTROL_ROOT` and `BN254_IDENTITY_CONTROL_ID` constants alone —
only positions 2 and 3 mention the claim digest. -/
theorem C9_public_inputs_total (d : List Nat) (hd : d.length = 32) :
    public_inputs d = .ok
      [to_fixed_array (ALLOWED_CONTROL_ROOT.reverse.drop 16),
       to_fixed_array (ALLOWED_CONTROL_ROOT.reverse.take 16),
       to_fixed_array (d.reverse.drop 16),
       to_fixed_array (d.reverse.take 16),
       to_fixed_array BN254_IDENTITY_CONTROL_ID.reverse] ∧
    (to_fixed_array (d.reverse.drop 16)).length = 32 ∧
    (to_fixed_array (d.reverse.take 16)).length = 32 ∧
    (to_fixed_array (ALLOWED_CONTROL_ROOT.reverse.drop 16)).length = 32 ∧
    (to_fixed_array (ALLOWED_CONTROL_ROOT.reverse.take 16)).length = 32 ∧
    (to_fixed_array BN254_IDENTITY_CONTROL_ID.reverse).length = 32 := by
  have h1 : d.reverse.length = 32 := by simp [hd]
  have hA : ALLOWED_CONTROL_ROOT.length = 32 := rfl
  have hB : BN254_IDENTITY_CONTROL_ID.length = 32 := rfl
  refine ⟨?_, ?_, ?_, by decide, by decide, by decide⟩
  · simp only [public_inputs, split_digest_bytes, to_fixed_array, h1, hA, hB,
      List.length_drop, List.length_take, List.length_reverse, hd]
  · simp [to_fixed_array, h1]
  · simp [to_fixed_array, h1]

/-- Claim C9 witness at a concrete 32-byte digest. -/
theorem C9_public_inputs_total_witness :
    public_inputs (List.replicate 32 1) = .ok
      [to_fixed_array (ALLOWED_CONTROL_ROOT.reverse.drop 16),
       to_fixed_array (ALLOWED_CONTROL_ROOT.reverse.take 16),
       to_fixed_array ((List.replicate 32 1).reverse.drop 16),
       to_fixed_array ((List.replicate 32 1).reverse.take 16),
       to_fixed_array BN254_IDENTITY_CONTROL_ID.reverse] ∧
    (to_fixed_array ((List.replicate 32 1).reverse.drop 16)).length = 32 ∧
    (to_fixed_array ((List.replicate 32 1).reverse.take 16)).length = 32 ∧
    (to_fixed_array (ALLOWED_CONTROL_ROOT.reverse.drop 16)).length = 32 ∧
    (to_fixed_array (ALLOWED_CONTROL_ROOT.reverse.take 16)).length = 32 ∧
    (to_fixed_array BN254_IDENTITY_CONTROL_ID.reverse).length = 32 :=
  C9_public_inputs_total (List.replicate 32 1) (by decide)

/-- Claim C5, counterexample: `public_inputs` applied to the all-zero
32-byte claim digest returns `Ok`, not an error — the claimed
`InvalidPublicInput` rejection of a null claim digest does not exist in the
code. -/
theorem C5_counterexample_zero_digest_ok :
    (public_inputs (List.replicate 32 0)).isOk = true := by decide

/-- Claim C5 as amended: `public_inputs` applied to the all-zero 32-byte
claim digest performs no null-digest check and returns `Ok` with the
5-element vector whose two claim-derived elements (positions 2 and 3) are
all-zero 32-byte field elements. -/
theorem C5_amended_zero_digest_accepted :
    public_inputs (List.replicate 32 0) = .ok
      [to_fixed_array (ALLOWED_CONTROL_ROOT.reverse.drop 16),
       to_fixed_array (ALLOWED_CONTROL_ROOT.reverse.take 16),
       List.replicate 32 0, List.replicate 32 0,
       BN254_IDENTITY_CONTROL_ID.reverse] := rfl

/-- Claim C2: `compute_claim_digest(image_id, journal_digest)` is
`SHA256(RECEIPT_CLAIM_TAG ‖ 0^32 ‖ image_id ‖ SYSTEM_STATE_ZERO_DIGEST ‖
output_digest ‖ 0x00000000 ‖ 0x00000000 ‖ 0x0400)` with
`output_digest = SHA256(OUTPUT_TAG ‖ journal_digest ‖ 0^32 ‖ 0x0200)`:
zero input digest, pre-state `image_id`, post-state
`SYSTEM_STATE_ZERO_DIGEST`, both exit codes zero serialized as the 4
big-endian bytes of `exit_code << 24`, and length suffixes `0x0200` and
`0x0400`.  Stated for every SHA-256 oracle `H`. -/
theorem C2_compute_claim_digest_structure (H : List Nat → List Nat)
    (image_id journal_digest : List Nat) :
    compute_claim_digest H image_id journal_digest =
      H (RECEIPT_CLAIM_TAG ++ List.replicate 32 0 ++ image_id ++
        SYSTEM_STATE_ZERO_DIGEST ++
        H (OUTPUT_TAG ++ journal_digest ++ List.replicate 32 0 ++ [2, 0]) ++
        [0, 0, 0, 0] ++ [0, 0, 0, 0] ++ [4, 0]) := rfl

/-- Claim C6: for every valid 64-byte G1 encoding (x in bytes 0..32, y in
bytes 32..64, each a big-endian integer below `q`), `negate_g1` keeps the x
bytes, replaces y by `q - y`, and applying it twice gives back the original
encoding. -/
theorem C6_negate_g1_involutive (p : List Nat) (hlen : p.length = 64)
    (hbytes : ∀ b ∈ p, b < 256)
    (hx : bytesToNat (p.take 32) < qNat) (hy : bytesToNat (p.drop 32) < qNat) :
    negate_g1 p =
      some (.ok (p.take 32 ++ natToBytesBE 32 (qNat - bytesToNat (p.drop 32)))) ∧
    negate_g1 (p.take 32 ++ natToBytesBE 32 (qNat - bytesToNat (p.drop 32))) =
      some (.ok p) := by
  have hyle : bytesToNat (p.drop 32) ≤ qNat := le_of_lt hy
  have hfirst : negate_g1 p =
      some (.ok (p.take 32 ++ natToBytesBE 32 (qNat - bytesToNat (p.drop 32)))) := by
    rw [negate_g1]
    rw [if_pos hyle]
  refine ⟨hfirst, ?_⟩
  have htake : (p.take 32).length = 32 := by simp [hlen]
  have hsplit1 : (p.take 32 ++ natToBytesBE 32 (qNat - bytesToNat (p.drop 32))).take 32
      = p.take 32 := List.take_left' htake
  have hsplit2 : (p.take 32 ++ natToBytesBE 32 (qNat - bytesToNat (p.drop 32))).drop 32
      = natToBytesBE 32 (qNat - bytesToNat (p.drop 32)) := List.drop_left' htake
  have hqbound : qNat < 256 ^ 32 := by decide
  have hval : bytesToNat (natToBytesBE 32 (qNat - bytesToNat (p.drop 32)))
      = qNat - bytesToNat (p.drop 32) := by
    rw [bytesToNat_natToBytesBE]
    exact Nat.mod_eq_of_lt (lt_of_le_of_lt (Nat.sub_le _ _) hqbound)
  rw [negate_g1]
  rw [hsplit1, hsplit2, hval, if_pos (Nat.sub_le _ _), Nat.sub_sub_self hyle]
  have hdlen : (p.drop 32).length = 32 := by simp [hlen]
  have hdbytes : ∀ b ∈ p.drop 32, b < 256 := fun b hb =>
    hbytes b (List.drop_subset _ p hb)
  have hback : natToBytesBE 32 (bytesToNat (p.drop 32)) = p.drop 32 := by
    have h0 := natToBytesBE_bytesToNat (p.drop 32) hdbytes
    rwa [hdlen] at h0
  rw [hback, List.take_append_drop]

/-- Claim C6 witness at the all-zero 64-byte encoding. -/
theorem C6_negate_g1_involutive_witness :
    negate_g1 (List.replicate 64 0) =
      some (.ok ((List.replicate 64 0).take 32 ++
        natToBytesBE 32 (qNat - bytesToNat ((List.replicate 64 0).drop 32)))) ∧
    negate_g1 ((List.replicate 64 0).take 32 ++
        natToBytesBE 32 (qNat - bytesToNat ((List.replicate 64 0).drop 32))) =
      some (.ok (List.replicate 64 0)) :=
  C6_negate_g1_involutive (List.replicate 64 0) (by decide) (by decide)
    (by decide) (by decide)

/-- Claim C10: `negate_g1` never returns its declared error value: on a
64-byte input whose y bytes denote an integer at most `q` it returns `Ok`
with the x bytes unchanged and y replaced by `q - y`; when the y integer
exceeds `q`, the `BigUint` subtraction `q - y` underflows and the function
panics (modelled by `none`) instead of returning the error. -/
theorem C10_negate_g1_behavior (p : List Nat) (hlen : p.length = 64) :
    (bytesToNat (p.drop 32) ≤ qNat →
      negate_g1 p =
        some (.ok (p.take 32 ++ natToBytesBE 32 (qNat - bytesToNat (p.drop 32))))) ∧
    (qNat < bytesToNat (p.drop 32) → negate_g1 p = none) ∧
    (∀ e : Unit, negate_g1 p ≠ some (.error e)) := by
  refine ⟨fun hy => ?_, fun hy => ?_, fun e => ?_⟩
  · rw [negate_g1]
    rw [if_pos hy]
  · rw [negate_g1]
    rw [if_neg (not_le_of_lt hy)]
  · rw [negate_g1]
    by_cases hc : bytesToNat (p.drop 32) ≤ qNat
    · rw [if_pos hc]
      simp
    · rw [if_neg hc]
      simp

/-- Claim C10 witness: the `Ok` branch at the all-zero encoding and the
panic branch at a y-coordinate of `2^256 - 1 > q`. -/
theorem C10_negate_g1_behavior_witness :
    negate_g1 (List.replicate 64 0) =
      some (.ok ((List.replicate 64 0).take 32 ++
        natToBytesBE 32 (qNat - bytesToNat ((List.replicate 64 0).drop 32)))) ∧
    negate_g1 (List.replicate 32 0 ++ List.replicate 32 255) = none :=
  ⟨(C10_negate_g1_behavior (List.replicate 64 0) (by decide)).1 (by decide),
   (C10_negate_g1_behavior (List.replicate 32 0 ++ List.replicate 32 255)
      (by decide)).2.1 (by decide)⟩

/-- A zero public-input scalar (a valid scalar, `0 < q`). -/
def zeroScalar : List Nat := List.replicate 32 0

/-- Primitives that always succeed: multiplication and addition return a
64-byte buffer, the pairing returns the 32-byte big-endian integer 1. -/
def okPrims : Prims where
  mul := fun _ => .ok (List.replicate 64 0)
  add := fun _ => .ok (List.replicate 64 0)
  pairing := fun _ => .ok (List.replicate 31 0 ++ [1])

/-- Primitives whose point-addition syscall fails. -/
def addFailPrims : Prims where
  mul := fun _ => .ok (List.replicate 64 0)
  add := fun _ => .error ()
  pairing := fun _ => .ok (List.replicate 31 0 ++ [1])

/-- A verification key fixture with `n` all-zero IC points. -/
def vkTest (n : Nat) : VerificationKey where
  nr_pubinputs := 5
  vk_alpha_g1 := List.replicate 64 0
  vk_beta_g2 := List.replicate 128 0
  vk_gamma_g2 := List.replicate 128 0
  vk_delta_g2 := List.replicate 128 0
  vk_ic := List.replicate n (List.replicate 64 0)

/-- An all-zero proof fixture. -/
def proofTest : Proof where
  pi_a := List.replicate 64 0
  pi_b := List.replicate 128 0
  pi_c := List.replicate 64 0

/-- When the input list has a first invalid scalar after `pre` valid ones
and the syscalls succeed on everything before it, the loop stops at the
invalid scalar with `InvalidPublicInput`, having issued exactly one
multiplication and one addition per earlier input and none for the invalid
one. -/
theorem prepare_loopT_first_invalid (P : Prims) (vk_ic : List (List Nat))
    (pre : List (List Nat)) (bad : List Nat) (rest : List (List Nat))
    (hpre : ∀ x ∈ pre, is_scalar_valid x = true)
    (hbad : is_scalar_valid bad = false)
    (hmul : ∀ bs, ∃ r, P.mul bs = .ok r)
    (hadd : ∀ bs, ∃ r, P.add bs = .ok r ∧ r.length = 64) :
    ∀ (i : Nat) (prepared : List Nat),
      prepare_loopT P vk_ic (pre ++ bad :: rest) i prepared =
        (.fail .InvalidPublicInput, (pre.length, pre.length)) := by
  induction pre with
  | nil =>
      intro i prepared
      exact prepare_loopT_cons_invalid P vk_ic bad rest i prepared hbad
  | cons p0 pre ih =>
      intro i prepared
      have hv : is_scalar_valid p0 = true := hpre p0 (by simp)
      obtain ⟨mr, hm⟩ := hmul (vk_ic.getD (i + 1) [] ++ p0)
      obtain ⟨sm, ha, hslen⟩ := hadd (mr ++ prepared)
      rw [List.cons_append,
        prepare_loopT_cons_step P vk_ic p0 (pre ++ bad :: rest) i prepared mr sm
          hv hm ha hslen,
        ih (fun x hx => hpre x (by simp [hx])) (i + 1) sm]
      simp

/-- The preparation loop only ever fails with `InvalidPublicInput` (invalid
scalar) or `ArithmeticError` (failed multiplication or wrong-length
addition result). -/
theorem prepare_loopT_fail_elim (P : Prims) (vk_ic : List (List Nat))
    (inputs : List (List Nat)) (i : Nat) (prepared : List Nat)
    (e : VerifierError)
    (h : (prepare_loopT P vk_ic inputs i prepared).1 = .fail e) :
    e = .InvalidPublicInput ∨ e = .ArithmeticError := by
  induction inputs generalizing i prepared with
  | nil => simp [prepare_loopT] at h
  | cons input rest ih =>
      cases hv : is_scalar_valid input with
      | false =>
          rw [prepare_loopT_cons_invalid P vk_ic input rest i prepared hv] at h
          simp at h
          exact Or.inl h.symm
      | true =>
          cases hm : P.mul (vk_ic.getD (i + 1) [] ++ input) with
          | error e2 =>
              rw [prepare_loopT_cons_mul_error P vk_ic input rest i prepared e2 hv hm] at h
              simp at h
              exact Or.inr h.symm
          | ok mul_res =>
              cases ha : P.add (mul_res ++ prepared) with
              | error e2 =>
                  rw [prepare_loopT_cons_add_error P vk_ic input rest i prepared
                    mul_res e2 hv hm ha] at h
                  simp at h
              | ok sum =>
                  by_cases hs : sum.length = 64
                  · rw [prepare_loopT_cons_step P vk_ic input rest i prepared
                      mul_res sum hv hm ha hs] at h
                    exact ih (i + 1) sum h
                  · rw [prepare_loopT_cons_len_error P vk_ic input rest i prepared
                      mul_res sum hv hm ha hs] at h
                    simp at h
                    exact Or.inr h.symm

/-- Claim C4: `verify_groth_proof` returns `InvalidPublicInput` when the IC
vector length differs from `N + 1` — checked before any curve operation (the
syscall counters stay at zero) — and when a public-input element is not
strictly below the BN254 base field modulus `q` as a 256-bit big-endian
integer, in which case no curve arithmetic is performed on that element (the
counters stop at the index of the first such element; the mul/add syscalls
are assumed to succeed on the earlier, valid elements, which is the only way
that element is reached at all).  The element is never reduced modulo `q`:
the call errors instead of continuing.  `is_scalar_valid` rejects `q` itself
and accepts `q - 1`. -/
theorem C4_invalid_public_input_rejection :
    (∀ (P : Prims) (vk : VerificationKey) (proof : Proof)
        (inputs : List (List Nat)),
      vk.vk_ic.length ≠ inputs.length + 1 →
      verify_groth_proofT P vk proof inputs =
        (.fail .InvalidPublicInput, (0, 0, 0))) ∧
    (∀ (P : Prims) (vk : VerificationKey) (proof : Proof)
        (pre : List (List Nat)) (bad : List Nat) (rest : List (List Nat)),
      vk.vk_ic.length = (pre ++ bad :: rest).length + 1 →
      (∀ x ∈ pre, is_scalar_valid x = true) →
      bad.length = 32 → (∀ b ∈ bad, b < 256) → qNat ≤ bytesToNat bad →
      (∀ bs, ∃ r, P.mul bs = .ok r) →
      (∀ bs, ∃ r, P.add bs = .ok r ∧ r.length = 64) →
      verify_groth_proofT P vk proof (pre ++ bad :: rest) =
        (.fail .InvalidPublicInput, (pre.length, pre.length, 0))) ∧
    is_scalar_valid BASE_FIELD_MODULUS_Q = false ∧
    is_scalar_valid (natToBytesBE 32 (qNat - 1)) = true := by
  refine ⟨?_, ?_, by decide, by decide⟩
  · intro P vk proof inputs hlen
    rw [verify_groth_proofT, if_pos hlen]
  · intro P vk proof pre bad rest hlen hpre hbadlen hbadbytes hbadge hmul hadd
    have hq : qNat = bytesToNat BASE_FIELD_MODULUS_Q := rfl
    have hbad : is_scalar_valid bad = false := by
      have hiff := scalar_cmp_loop_iff_lt bad BASE_FIELD_MODULUS_Q
        (by rw [hbadlen]; rfl) hbadbytes (by decide)
      rw [is_scalar_valid]
      cases hb : scalar_cmp_loop bad BASE_FIELD_MODULUS_Q with
      | false => rfl
      | true =>
          exfalso
          have hlt := hiff.mp hb
          omega
    have hloop := prepare_loopT_first_invalid P vk.vk_ic pre bad rest hpre hbad
      hmul hadd 0 (vk.vk_ic.getD 0 [])
    rw [verify_groth_proofT, if_neg (not_not_intro hlen), hloop]

/-- Claim C4 witness: a wrong-length IC vector is rejected with no syscalls;
a third input equal to `q` is rejected after exactly two multiplications and
two additions (for the two earlier valid inputs) and no pairing. -/
theorem C4_invalid_public_input_rejection_witness :
    verify_groth_proofT okPrims (vkTest 0) proofTest [] =
      (.fail .InvalidPublicInput, (0, 0, 0)) ∧
    verify_groth_proofT okPrims (vkTest 4) proofTest
      [zeroScalar, zeroScalar, BASE_FIELD_MODULUS_Q] =
      (.fail .InvalidPublicInput, (2, 2, 0)) :=
  ⟨C4_invalid_public_input_rejection.1 okPrims (vkTest 0) proofTest []
      (by decide),
   C4_invalid_public_input_rejection.2.1 okPrims (vkTest 4) proofTest
      [zeroScalar, zeroScalar] BASE_FIELD_MODULUS_Q [] (by decide) (by decide)
      (by decide) (by decide) (by decide)
      (fun bs => ⟨List.replicate 64 0, rfl⟩)
      (fun bs => ⟨List.replicate 64 0, rfl, by decide⟩)⟩

/-- Claim C8, counterexample: a verification call with `N = 5` public inputs
that runs to a successful pairing check issues exactly 5 scalar
multiplications — not `N + 1 = 6` as claimed — together with 5 point
additions and 1 pairing. -/
theorem C8_counterexample_operation_count :
    verify_groth_proofT okPrims (vkTest 6) proofTest (List.replicate 5 zeroScalar) =
      (.ok (), (5, 5, 1)) ∧
    (verify_groth_proofT okPrims (vkTest 6) proofTest
      (List.replicate 5 zeroScalar)).2.1 ≠ (List.replicate 5 zeroScalar).length + 1 := by
  refine ⟨by decide, by decide⟩

/-- Claim C8 as amended: every verification call with `N` public inputs that
reaches the pairing check (returns `Ok` or `VerificationError`) invokes the
scalar-multiplication primitive exactly `N` times, the point-addition
primitive exactly `N` times, and the multi-pairing primitive exactly once;
the counts do not depend on the proof or input values. -/
theorem C8_amended_operation_count (P : Prims) (vk : VerificationKey)
    (proof : Proof) (inputs : List (List Nat))
    (hdone : (verify_groth_proofT P vk proof inputs).1 = .ok () ∨
      (verify_groth_proofT P vk proof inputs).1 = .fail .VerificationError) :
    (verify_groth_proofT P vk proof inputs).2 =
      (inputs.length, inputs.length, 1) := by
  by_cases hlen : vk.vk_ic.length ≠ inputs.length + 1
  · rw [verify_groth_proofT, if_pos hlen] at hdone ⊢
    simp at hdone
  · rw [verify_groth_proofT, if_neg hlen] at hdone ⊢
    dsimp only at hdone ⊢
    cases hr : (prepare_loopT P vk.vk_ic inputs 0 (vk.vk_ic.getD 0 [])).1 with
    | ok out =>
        have hc := prepare_loopT_count_of_ok P vk.vk_ic inputs 0
          (vk.vk_ic.getD 0 []) out hr
        have hc1 : (prepare_loopT P vk.vk_ic inputs 0 (vk.vk_ic.getD 0 [])).2.1
            = inputs.length := by rw [hc]
        have hc2 : (prepare_loopT P vk.vk_ic inputs 0 (vk.vk_ic.getD 0 [])).2.2
            = inputs.length := by rw [hc]
        simp only [hc1, hc2]
    | fail e =>
        have helim := prepare_loopT_fail_elim P vk.vk_ic inputs 0
          (vk.vk_ic.getD 0 []) e hr
        rw [hr] at hdone
        simp at hdone
        rcases helim with h | h <;> rw [h] at hdone <;> simp at hdone
    | panicked =>
        rw [hr] at hdone
        simp at hdone

/-- Claim C8 witness: the amended count at a concrete successful run with
five public inputs. -/
theorem C8_amended_operation_count_witness :
    (verify_groth_proofT okPrims (vkTest 6) proofTest
      (List.replicate 5 zeroScalar)).2 = (5, 5, 1) :=
  C8_amended_operation_count okPrims (vkTest 6) proofTest
    (List.replicate 5 zeroScalar) (Or.inl (by decide))

/-- Claim C1 (code bug): when the point-addition primitive fails,
`verify_groth_proof` panics — the `alt_bn128_addition(..)` result is
`.unwrap()`-ed before the `try_into` whose `map_err` was meant to produce
`ArithmeticError` — instead of returning `ArithmeticError` as the claim
(and the specification, which forbids panicking on failure paths) states.
Evaluated at a concrete input: six IC points, five valid zero scalars, a
multiplication primitive that succeeds and an addition primitive that
fails. -/
theorem C1_add_failure_panics :
    verify_groth_proof addFailPrims (vkTest 6) proofTest
      (List.replicate 5 zeroScalar) = .panicked ∧
    (Outcome.panicked : Outcome Unit) ≠ .fail .ArithmeticError := by
  refine ⟨by decide, by decide⟩
